import Mathlib

/-
Verification of the storage-bay designer (`src/app.py`).

Shallow embedding: lengths in millimetres are modelled as exact rationals,
counts as natural numbers, a bay group as a record with the fields of the
session-state dictionary of `app.py`.  The height-reconciliation callbacks,
the parameter validator, the per-bay bin-width computation, the rectangle
layout of the live preview and the bill-of-materials table are translated
definition by definition from the source.
-/

/-- Role of a geometry part, one per kind of rectangle drawn by
`draw_bay_group` in `app.py`. -/
inductive Role where
  | sidePanel
  | shelf
  | divider
  | topCap
deriving DecidableEq

/-- An axis-aligned rectangle part `{x, y, width, height, role}`. -/
structure Rect where
  x : ℚ
  y : ℚ
  w : ℚ
  h : ℚ
  role : Role
deriving DecidableEq

/-- One bay group: the keys of the session-state dictionary created in
`app.py` (display-only fields `id`, `name`, `color`, `zoom` omitted as they
never enter any computation the claims are about). -/
structure BayGroup where
  num_bays : ℕ
  bay_width : ℚ
  total_height : ℚ
  ground_clearance : ℚ
  shelf_thickness : ℚ
  side_panel_thickness : ℚ
  bin_split_thickness : ℚ
  num_cols : ℕ
  num_rows : ℕ
  has_top_cap : Bool
  bin_heights : List ℚ
  lock_heights : List Bool
deriving DecidableEq

/-- `num_shelves_for_calc` as computed in both height callbacks of `app.py`:
`num_rows + (1 if has_top_cap else 0)`. -/
def num_shelves (g : BayGroup) : ℕ :=
  g.num_rows + (if g.has_top_cap then 1 else 0)

/-- `available_space` as computed by `distribute_total_height` (app.py line 436):
`total_height - ground_clearance - num_shelves * shelf_thickness`. -/
def available_space (g : BayGroup) : ℚ :=
  g.total_height - g.ground_clearance - (num_shelves g : ℚ) * g.shelf_thickness

/-- `num_unlocked` of `distribute_total_height` (app.py lines 438-439): the
number of indices of `lock_heights` that are not locked. -/
def num_unlocked (g : BayGroup) : ℕ :=
  (g.lock_heights.filter (fun b => !b)).length

/-- `distribute_total_height` (app.py lines 432-444): when the available
space is positive and some level is unlocked, every unlocked level gets
`available_space / num_unlocked`; otherwise nothing changes. -/
def distribute_total_height (g : BayGroup) : BayGroup :=
  if 0 < available_space g ∧ 0 < num_unlocked g then
    { g with bin_heights :=
        (List.zipWith
          (fun h locked => if locked then h else available_space g / (num_unlocked g : ℚ))
          g.bin_heights g.lock_heights) }
  else g

/-- `update_total_height` (app.py lines 446-452): recompute `total_height`
from the bin heights, shelves and ground clearance. -/
def update_total_height (g : BayGroup) : BayGroup :=
  { g with total_height :=
      (g.bin_heights.sum + (num_shelves g : ℚ) * g.shelf_thickness + g.ground_clearance) }

/-- The checks of `validate_group_params` (app.py lines 33-59), one code per
appended message, in source order. -/
inductive ValidationError where
  | numBaysTooSmall
  | bayWidthNotPositive
  | totalHeightNotPositive
  | groundClearanceNegative
  | shelfThicknessNotPositive
  | sidePanelThicknessNotPositive
  | binSplitThicknessNotPositive
  | numColsTooSmall
  | numRowsTooSmall
  | heightMismatch
deriving DecidableEq

/-- `validate_group_params` (app.py lines 33-59): every violated check
appends its own error, in source order; the message strings are abstracted
to the `ValidationError` codes. -/
def validate_group_params (g : BayGroup) : List ValidationError :=
  (if g.num_bays < 1 then [ValidationError.numBaysTooSmall] else []) ++
  (if g.bay_width ≤ 0 then [ValidationError.bayWidthNotPositive] else []) ++
  (if g.total_height ≤ 0 then [ValidationError.totalHeightNotPositive] else []) ++
  (if g.ground_clearance < 0 then [ValidationError.groundClearanceNegative] else []) ++
  (if g.shelf_thickness ≤ 0 then [ValidationError.shelfThicknessNotPositive] else []) ++
  (if g.side_panel_thickness ≤ 0 then [ValidationError.sidePanelThicknessNotPositive] else []) ++
  (if g.bin_split_thickness ≤ 0 then [ValidationError.binSplitThicknessNotPositive] else []) ++
  (if g.num_cols < 1 then [ValidationError.numColsTooSmall] else []) ++
  (if g.num_rows < 1 then [ValidationError.numRowsTooSmall] else []) ++
  (if 1/10 <
      |g.bin_heights.sum + (num_shelves g : ℚ) * g.shelf_thickness + g.ground_clearance
        - g.total_height| then
    [ValidationError.heightMismatch] else [])

/-- `bin_width` as computed inside `draw_bays` (app.py lines 100-103):
`net_width_per_bay = bay_width - 2 * side_panel_thickness`, then
`(net_width_per_bay - (num_cols - 1) * bin_split_thickness) / num_cols`
when `num_cols > 0`, else `0`. -/
def bin_width (g : BayGroup) : ℚ :=
  if 0 < g.num_cols then
    ((g.bay_width - 2 * g.side_panel_thickness)
        - ((g.num_cols : ℚ) - 1) * g.bin_split_thickness) / (g.num_cols : ℚ)
  else 0

/-- `visual_side_panel_thickness = max(side_panel_thickness, 10.0)`
(app.py line 82). -/
def visual_side_panel_thickness (g : BayGroup) : ℚ :=
  max g.side_panel_thickness 10

/-- `visual_shelf_thickness = min(shelf_thickness, 18.0)` (app.py line 80). -/
def visual_shelf_thickness (g : BayGroup) : ℚ :=
  min g.shelf_thickness 18

/-- `visual_bin_split_thickness = min(bin_split_thickness, 18.0)`
(app.py line 81). -/
def visual_bin_split_thickness (g : BayGroup) : ℚ :=
  min g.bin_split_thickness 18

/-- `core_width = num_bays * bay_width` (app.py line 85). -/
def core_width (g : BayGroup) : ℚ :=
  (g.num_bays : ℚ) * g.bay_width

/-- `total_group_width = core_width + 2 * side_panel_thickness`
(app.py line 86). -/
def total_group_width (g : BayGroup) : ℚ :=
  core_width g + 2 * g.side_panel_thickness

/-- The two side-panel rectangles of `draw_side_panels` (app.py lines 93-95). -/
def draw_side_panels (g : BayGroup) : List Rect :=
  [⟨-(visual_side_panel_thickness g), 0, visual_side_panel_thickness g, g.total_height,
      Role.sidePanel⟩,
   ⟨core_width g, 0, visual_side_panel_thickness g, g.total_height, Role.sidePanel⟩]

/-- The vertical divider drawn for split index `i` of a bay starting at
`bin_start_x` (app.py lines 106-109): `split_x = bin_start_x + i * bin_width
+ (i - 1) * bin_split_thickness`, drawn from `ground_clearance` with height
`structure_height = total_height - ground_clearance`. -/
def divider_rect (g : BayGroup) (bin_start_x : ℚ) (i : ℕ) : Rect :=
  ⟨bin_start_x + (i : ℚ) * bin_width g + ((i : ℚ) - 1) * g.bin_split_thickness,
   g.ground_clearance,
   visual_bin_split_thickness g,
   g.total_height - g.ground_clearance,
   Role.divider⟩

/-- The divider rectangles of `draw_bays` (app.py lines 98-115): for each bay
(whose `bin_start_x` is `bay_idx * bay_width`), one divider for every
`i in range(1, num_cols)`. -/
def draw_bays (g : BayGroup) : List Rect :=
  (List.range g.num_bays).flatMap
    (fun b => (List.range (g.num_cols - 1)).map
      (fun j => divider_rect g ((b : ℚ) * g.bay_width) (j + 1)))

/-- A shelf rectangle at height `y` (app.py line 124): full group width,
drawn with the visual shelf thickness. -/
def shelf_rect (g : BayGroup) (y : ℚ) : Rect :=
  ⟨-(visual_side_panel_thickness g), y, total_group_width g, visual_shelf_thickness g,
   Role.shelf⟩

/-- The shelf rectangles of the `for i in range(num_rows)` loop of
`draw_shelves_and_dimensions` (app.py lines 118-141): a shelf is drawn at the
running `current_y`, and `current_y` advances by `shelf_thickness +
bin_heights[i]` only while `i < len(bin_heights)`. -/
def draw_shelves (g : BayGroup) : ℕ → ℚ → List ℚ → List Rect
  | 0, _, _ => []
  | n + 1, y, [] => shelf_rect g y :: draw_shelves g n y []
  | n + 1, y, h :: hs => shelf_rect g y :: draw_shelves g n (y + g.shelf_thickness + h) hs

/-- The optional top-cap rectangle (app.py lines 143-144). -/
def draw_top_cap (g : BayGroup) : List Rect :=
  if g.has_top_cap then
    [⟨-(visual_side_panel_thickness g), g.total_height - visual_shelf_thickness g,
      total_group_width g, visual_shelf_thickness g, Role.topCap⟩]
  else []

/-- All rectangles drawn by `draw_bay_group` for one group, in drawing order
(app.py lines 169-172): side panels, bay dividers, shelves, top cap. -/
def layout_parts (g : BayGroup) : List Rect :=
  draw_side_panels g ++ draw_bays g
    ++ draw_shelves g g.num_rows g.ground_clearance g.bin_heights
    ++ draw_top_cap g

/-- Two rectangles have overlapping interiors. -/
def rect_overlap (a b : Rect) : Prop :=
  a.x < b.x + b.w ∧ b.x < a.x + a.w ∧ a.y < b.y + b.h ∧ b.y < a.y + a.h

instance (a b : Rect) : Decidable (rect_overlap a b) := by
  unfold rect_overlap
  infer_instance

/-- The vertical bands swept by the shelf loop of
`draw_shelves_and_dimensions`: for each level, the drawn shelf band
`[y, y + vst)` followed by the net bin gap `[y + t, y + t + h)`, where `t`
is the actual and `vst` the drawn (visual) shelf thickness. -/
def shelf_gap_bands (t vst : ℚ) : ℚ → List ℚ → List (ℚ × ℚ)
  | _, [] => []
  | y, h :: hs => (y, y + vst) :: (y + t, y + t + h) :: shelf_gap_bands t vst (y + t + h) hs

/-- Vertical bands of one group: shelf and bin-gap bands starting at
`ground_clearance`, plus the top-cap band when present (app.py lines 118-144). -/
def vbands (g : BayGroup) : List (ℚ × ℚ) :=
  shelf_gap_bands g.shelf_thickness (visual_shelf_thickness g)
      g.ground_clearance g.bin_heights
    ++ (if g.has_top_cap then
          [(g.total_height - visual_shelf_thickness g, g.total_height)] else [])

/-- Union of the half-open intervals of a list of bands. -/
def bands_union (l : List (ℚ × ℚ)) : Set ℚ :=
  l.foldr (fun b s => Set.Ico b.1 b.2 ∪ s) ∅

/-- Total advance of the shelf loop over the given bin heights: one shelf
thickness plus one net height per level. -/
def adv_sum (t : ℚ) (hs : List ℚ) : ℚ :=
  (hs.map (fun h => t + h)).sum

/-- Per-group row of the bill-of-materials table of `create_summary_slide`
(app.py lines 206-209): side panels, shelves, dividers. -/
def bom_row (g : BayGroup) : ℤ × ℤ × ℤ :=
  (2, (g.num_rows : ℤ) + (if g.has_top_cap then 1 else 0),
    ((g.num_cols : ℤ) - 1) * (g.num_bays : ℤ))

/-- One step of the accumulation loop of `create_summary_slide` (app.py
lines 206-218): emit the group's row and add its counts to the totals. -/
def bom_step (acc : List (ℤ × ℤ × ℤ) × (ℤ × ℤ × ℤ)) (g : BayGroup) :
    List (ℤ × ℤ × ℤ) × (ℤ × ℤ × ℤ) :=
  (acc.1 ++ [bom_row g],
   (acc.2.1 + (bom_row g).1, acc.2.2.1 + (bom_row g).2.1, acc.2.2.2 + (bom_row g).2.2))

/-- The bill-of-materials table of `create_summary_slide` (app.py lines
202-223): the per-group rows and the final totals row. -/
def bom_table (groups : List BayGroup) : List (ℤ × ℤ × ℤ) × (ℤ × ℤ × ℤ) :=
  groups.foldl bom_step ([], (0, 0, 0))

/-- A small group with one locked and one unlocked level, used to witness
claim C2. -/
def c2_group : BayGroup :=
  ⟨1, 100, 500, 0, 10, 18, 18, 2, 2, false, [100, 200], [true, false]⟩

/-- A fully valid, fully unlocked group whose total height is off from the
level sum by 0.05 mm (inside the 0.1 mm validator tolerance) and whose
available space is not positive; it breaks the reconciliation round trip. -/
def c5_group : BayGroup :=
  ⟨1, 100, 18, 0, 18, 18, 18, 1, 1, false, [1/20], [false]⟩

/-- The reference scenario with all five levels unlocked and target total
height 2000, used to witness the amended claim C5. -/
def c5_witness_group : BayGroup :=
  ⟨2, 1050, 2000, 50, 18, 18, 18, 4, 5, true,
   [350, 350, 350, 350, 350], [false, false, false, false, false]⟩

/-- A group passing all nine checks listed in claim C8 while its total
height is negative (possible because level heights are never checked for
positivity), so the validator's total-height check fires. -/
def c8_group : BayGroup :=
  ⟨1, 100, -82, 0, 18, 18, 18, 1, 1, false, [-100], [false]⟩

/-- The reference scenario of the spec (also the default group of `app.py`
with the five level heights at 350 and the reconciled total height 1908). -/
def c4_group : BayGroup :=
  ⟨2, 1050, 1908, 50, 18, 18, 18, 4, 5, true,
   [350, 350, 350, 350, 350], [false, false, false, false, false]⟩

/-- The scenario group of claim C6: level 0 locked at 400, target total
height 2000. -/
def c6_group : BayGroup :=
  ⟨2, 1050, 2000, 50, 18, 18, 18, 4, 5, true,
   [400, 350, 350, 350, 350], [true, false, false, false, false]⟩

/-- A validator-passing group with a zero level height (claim C10). -/
def c10_group : BayGroup :=
  ⟨1, 100, 586, 50, 18, 18, 18, 1, 2, false, [0, 500], [false, false]⟩

/-- C1: for every BayGroup, after `update_total_height` the total height
equals `sum(bin_heights) + (num_rows + top cap) * shelf_thickness +
ground_clearance` within 0.01 mm (exactly, in the rational model), and no
field other than `total_height` is modified. -/
theorem c1_update_total_height_spec (g : BayGroup) :
    |(update_total_height g).total_height -
        (g.bin_heights.sum
          + ((g.num_rows + (if g.has_top_cap then 1 else 0) : ℕ) : ℚ) * g.shelf_thickness
          + g.ground_clearance)| ≤ 1/100 ∧
    (update_total_height g).num_bays = g.num_bays ∧
    (update_total_height g).bay_width = g.bay_width ∧
    (update_total_height g).ground_clearance = g.ground_clearance ∧
    (update_total_height g).shelf_thickness = g.shelf_thickness ∧
    (update_total_height g).side_panel_thickness = g.side_panel_thickness ∧
    (update_total_height g).bin_split_thickness = g.bin_split_thickness ∧
    (update_total_height g).num_cols = g.num_cols ∧
    (update_total_height g).num_rows = g.num_rows ∧
    (update_total_height g).has_top_cap = g.has_top_cap ∧
    (update_total_height g).bin_heights = g.bin_heights ∧
    (update_total_height g).lock_heights = g.lock_heights := by
  refine ⟨?_, rfl, rfl, rfl, rfl, rfl, rfl, rfl, rfl, rfl, rfl, rfl⟩
  simp only [update_total_height, num_shelves]
  norm_num

/-- C4 counterexample: at the reference scenario the per-bay bin width the
layout computes is not 249 (the code subtracts both side panels from the
net width per bay, so it is 240). -/
theorem c4_counterexample : bin_width c4_group ≠ 249 := by
  simp only [bin_width, c4_group]
  norm_num

/-- C4 amended: at the reference scenario the reconciled total height is
1908 and the per-bay bin width is `(1050 - 2*18 - 3*18)/4 = 240`. -/
theorem c4_amended_scenario :
    (update_total_height c4_group).total_height = 1908 ∧ bin_width c4_group = 240 := by
  constructor
  · simp only [update_total_height, num_shelves, c4_group]
    norm_num
  · simp only [bin_width, c4_group]
    norm_num

/-- C6 counterexample: with level 0 locked at 400 and target total height
2000, the redistributed height of level 1 is not 360.5. -/
theorem c6_counterexample :
    (distribute_total_height c6_group).bin_heights.getD 1 0 ≠ 721/2 := by
  simp only [distribute_total_height, available_space, num_shelves, num_unlocked, c6_group]
  norm_num [List.filter, List.zipWith]

/-- C6 amended: the available space is 1842 and each of the four unlocked
levels gets `1842/4 = 460.5` (the code does not subtract the locked height
from the available space); level 0 stays at 400. -/
theorem c6_amended_scenario :
    available_space c6_group = 1842 ∧
    (distribute_total_height c6_group).bin_heights
      = [400, 921/2, 921/2, 921/2, 921/2] := by
  constructor
  · simp only [available_space, num_shelves, c6_group]
    norm_num
  · simp only [distribute_total_height, available_space, num_shelves, num_unlocked, c6_group]
    norm_num [List.filter, List.zipWith]

/-- C10: `validate_group_params` never checks the individual level heights
for positivity: this group has a zero level height, satisfies every other
check, and validates to the empty error list. -/
theorem c10_no_level_positivity_check :
    c10_group.bin_heights = [0, 500] ∧ validate_group_params c10_group = [] := by
  refine ⟨rfl, ?_⟩
  simp only [validate_group_params, num_shelves, c10_group]
  norm_num

/-- Entry `i` of zipping a height list with a lock list: the height is kept
where locked, replaced by `c` where unlocked. -/
theorem getD_zipWith_lock (c : ℚ) :
    ∀ (bs : List ℚ) (ls : List Bool) (i : ℕ), i < bs.length → i < ls.length →
      (List.zipWith (fun h locked => if locked then h else c) bs ls).getD i 0 =
        if ls.getD i false then bs.getD i 0 else c := by
  intro bs
  induction bs with
  | nil => intro ls i h1 _; simp at h1
  | cons b bs ih =>
    intro ls i h1 h2
    cases ls with
    | nil => simp at h2
    | cons l ls =>
      cases i with
      | zero => simp
      | succ i =>
        simp only [List.zipWith_cons_cons, List.getD_cons_succ]
        exact ih ls i (by simpa using h1) (by simpa using h2)

/-- C2: `distribute_total_height` computes the available space; when it is
positive and some level is unlocked, every unlocked level's height becomes
`available / num_unlocked`, locked levels are untouched, and no other field
changes; when the available space is not positive or every level is locked,
the group is returned unchanged. -/
theorem c2_distribute_spec (g : BayGroup)
    (hlen : g.lock_heights.length = g.bin_heights.length) :
    ((0 < available_space g ∧ 0 < num_unlocked g) →
      (distribute_total_height g).bin_heights.length = g.bin_heights.length ∧
      (∀ i, i < g.bin_heights.length →
        (distribute_total_height g).bin_heights.getD i 0 =
          if g.lock_heights.getD i false then g.bin_heights.getD i 0
          else available_space g / (num_unlocked g : ℚ)) ∧
      (distribute_total_height g).total_height = g.total_height ∧
      (distribute_total_height g).lock_heights = g.lock_heights ∧
      (distribute_total_height g).num_bays = g.num_bays ∧
      (distribute_total_height g).bay_width = g.bay_width ∧
      (distribute_total_height g).ground_clearance = g.ground_clearance ∧
      (distribute_total_height g).shelf_thickness = g.shelf_thickness ∧
      (distribute_total_height g).side_panel_thickness = g.side_panel_thickness ∧
      (distribute_total_height g).bin_split_thickness = g.bin_split_thickness ∧
      (distribute_total_height g).num_cols = g.num_cols ∧
      (distribute_total_height g).num_rows = g.num_rows ∧
      (distribute_total_height g).has_top_cap = g.has_top_cap) ∧
    ((available_space g ≤ 0 ∨ num_unlocked g = 0) → distribute_total_height g = g) := by
  constructor
  · intro hc
    unfold distribute_total_height
    rw [if_pos hc]
    refine ⟨?_, ?_, rfl, rfl, rfl, rfl, rfl, rfl, rfl, rfl, rfl, rfl, rfl⟩
    · simp [List.length_zipWith, hlen]
    · intro i hi
      exact getD_zipWith_lock _ g.bin_heights g.lock_heights i hi (by rw [hlen]; exact hi)
  · intro hc
    unfold distribute_total_height
    rw [if_neg]
    rintro ⟨h1, h2⟩
    rcases hc with hc | hc
    · exact absurd h1 (not_lt.mpr hc)
    · omega

/-- C2 witness: on `c2_group` (level 0 locked at 100, level 1 unlocked,
available space 480, one unlocked level) the unlocked level becomes 480 and
the locked one stays 100. -/
theorem c2_distribute_spec_witness :
    c2_group.lock_heights.length = c2_group.bin_heights.length ∧
    (distribute_total_height c2_group).bin_heights.getD 1 0 = 480 ∧
    (distribute_total_height c2_group).bin_heights.getD 0 0 = 100 ∧
    (distribute_total_height c2_group).total_height = c2_group.total_height := by
  have h := c2_distribute_spec c2_group rfl
  have hc : 0 < available_space c2_group ∧ 0 < num_unlocked c2_group := by
    constructor
    · simp only [available_space, num_shelves, c2_group]
      norm_num
    · simp only [num_unlocked, c2_group, List.filter]
      norm_num
  obtain ⟨hl, hgetD, hth, -⟩ := h.1 hc
  refine ⟨rfl, ?_, ?_, hth⟩
  · rw [hgetD 1 (by norm_num [c2_group])]
    simp only [c2_group, available_space, num_shelves, num_unlocked, List.filter]
    norm_num
  · rw [hgetD 0 (by norm_num [c2_group])]
    simp [c2_group]

/-- Zipping with an all-false lock list replaces every height by `c`. -/
theorem zipWith_const_of_all_false (c : ℚ) :
    ∀ (bs : List ℚ) (ls : List Bool), bs.length = ls.length → (∀ b ∈ ls, b = false) →
      List.zipWith (fun h locked => if locked then h else c) bs ls
        = bs.map (fun _ => c) := by
  intro bs
  induction bs with
  | nil => intro ls _ _; simp
  | cons b bs ih =>
    intro ls hlen hall
    cases ls with
    | nil => simp at hlen
    | cons l ls =>
      have hl : l = false := hall l (by simp)
      have htail := ih ls (by simpa using hlen) (fun x hx => hall x (by simp [hx]))
      simp [hl, htail]

/-- Summing a constant list gives length times the constant. -/
theorem sum_map_const_rat (l : List ℚ) (c : ℚ) :
    (l.map (fun _ => c)).sum = (l.length : ℚ) * c := by
  simp [List.map_const', List.sum_replicate, nsmul_eq_mul]

/-- With every level unlocked, `num_unlocked` is the number of levels. -/
theorem num_unlocked_of_all_false (g : BayGroup)
    (hall : ∀ b ∈ g.lock_heights, b = false) :
    num_unlocked g = g.lock_heights.length := by
  unfold num_unlocked
  rw [List.filter_eq_self.mpr]
  intro b hb
  simp [hall b hb]

/-- C5 amended: when all levels are unlocked, the lists are parallel and
nonempty, and the available space is positive (so the redistribution
actually runs), `distribute_total_height` followed by `update_total_height`
restores the original total height exactly. -/
theorem c5_roundtrip_amended (g : BayGroup)
    (hall : ∀ b ∈ g.lock_heights, b = false)
    (hlen : g.lock_heights.length = g.bin_heights.length)
    (hne : 0 < g.bin_heights.length)
    (hav : 0 < available_space g) :
    (update_total_height (distribute_total_height g)).total_height = g.total_height := by
  have hU : num_unlocked g = g.lock_heights.length := num_unlocked_of_all_false g hall
  have hUpos : 0 < num_unlocked g := by rw [hU, hlen]; exact hne
  unfold distribute_total_height
  rw [if_pos ⟨hav, hUpos⟩]
  unfold update_total_height
  simp only [num_shelves]
  rw [zipWith_const_of_all_false _ g.bin_heights g.lock_heights hlen.symm hall,
    sum_map_const_rat]
  have hcast : (g.bin_heights.length : ℚ) = (num_unlocked g : ℚ) := by
    rw [hU, hlen]
  have hne0 : ((num_unlocked g : ℕ) : ℚ) ≠ 0 := by
    exact_mod_cast Nat.pos_iff_ne_zero.mp hUpos
  rw [hcast, mul_comm, div_mul_cancel₀ _ hne0]
  unfold available_space num_shelves
  ring

/-- C5 counterexample: `c5_group` is fully valid and fully unlocked, but its
available space is zero, so the redistribution is a no-op and the following
`update_total_height` moves the total height from 18 to 18.05. -/
theorem c5_counterexample :
    validate_group_params c5_group = [] ∧
    c5_group.lock_heights = [false] ∧
    (update_total_height (distribute_total_height c5_group)).total_height
      ≠ c5_group.total_height := by
  refine ⟨?_, rfl, ?_⟩
  · simp only [validate_group_params, num_shelves, c5_group]
    norm_num [lt_abs]
  · simp only [distribute_total_height, available_space, num_shelves, num_unlocked,
      update_total_height, c5_group]
    norm_num

/-- C5 witness: on the reference scenario with target total height 2000 and
all levels unlocked, the round trip restores 2000. -/
theorem c5_roundtrip_witness :
    c5_witness_group.lock_heights = [false, false, false, false, false] ∧
    0 < available_space c5_witness_group ∧
    (update_total_height (distribute_total_height c5_witness_group)).total_height
      = c5_witness_group.total_height :=
  ⟨rfl,
   by simp only [available_space, num_shelves, c5_witness_group]; norm_num,
   c5_roundtrip_amended c5_witness_group (by decide) rfl (by norm_num [c5_witness_group])
     (by simp only [available_space, num_shelves, c5_witness_group]; norm_num)⟩

/-- A conditional singleton list is empty exactly when the condition fails. -/
theorem ite_singleton_eq_nil {α : Type} (c : Prop) [Decidable c] (e : α) :
    ((if c then [e] else []) = []) ↔ ¬c := by
  by_cases h : c <;> simp [h]

/-- Membership in a conditional singleton list. -/
theorem mem_ite_singleton {α : Type} (c : Prop) [Decidable c] (a e : α) :
    (a ∈ (if c then [e] else [])) ↔ (c ∧ a = e) := by
  by_cases h : c <;> simp [h]

/-- C8 amended: the validator reports, independently, exactly the violated
checks among the nine positivity/count checks, the total-height positivity
check (present in the code but missing from the claim), and the 0.1 mm
height-sum agreement; the result is empty exactly when all these hold. -/
theorem c8_validate_characterization (g : BayGroup) :
    (validate_group_params g = [] ↔
      (1 ≤ g.num_bays ∧ 0 < g.bay_width ∧ 0 < g.total_height ∧ 0 ≤ g.ground_clearance ∧
       0 < g.shelf_thickness ∧ 0 < g.side_panel_thickness ∧ 0 < g.bin_split_thickness ∧
       1 ≤ g.num_cols ∧ 1 ≤ g.num_rows ∧
       |g.bin_heights.sum + (num_shelves g : ℚ) * g.shelf_thickness + g.ground_clearance
          - g.total_height| ≤ 1/10)) ∧
    (ValidationError.numBaysTooSmall ∈ validate_group_params g ↔ g.num_bays < 1) ∧
    (ValidationError.bayWidthNotPositive ∈ validate_group_params g ↔ g.bay_width ≤ 0) ∧
    (ValidationError.totalHeightNotPositive ∈ validate_group_params g ↔
      g.total_height ≤ 0) ∧
    (ValidationError.groundClearanceNegative ∈ validate_group_params g ↔
      g.ground_clearance < 0) ∧
    (ValidationError.shelfThicknessNotPositive ∈ validate_group_params g ↔
      g.shelf_thickness ≤ 0) ∧
    (ValidationError.sidePanelThicknessNotPositive ∈ validate_group_params g ↔
      g.side_panel_thickness ≤ 0) ∧
    (ValidationError.binSplitThicknessNotPositive ∈ validate_group_params g ↔
      g.bin_split_thickness ≤ 0) ∧
    (ValidationError.numColsTooSmall ∈ validate_group_params g ↔ g.num_cols < 1) ∧
    (ValidationError.numRowsTooSmall ∈ validate_group_params g ↔ g.num_rows < 1) ∧
    (ValidationError.heightMismatch ∈ validate_group_params g ↔
      1/10 < |g.bin_heights.sum + (num_shelves g : ℚ) * g.shelf_thickness
        + g.ground_clearance - g.total_height|) := by
  unfold validate_group_params
  refine ⟨?_, ?_, ?_, ?_, ?_, ?_, ?_, ?_, ?_, ?_, ?_⟩ <;>
    simp [List.append_eq_nil, ite_singleton_eq_nil, mem_ite_singleton, List.mem_append,
      not_lt, not_le, Nat.lt_one_iff, Nat.one_le_iff_ne_zero]

/-- C8 counterexample: `c8_group` satisfies all nine checks the claim lists
and its height sum agrees exactly, yet the validator rejects it (its total
height is negative, a tenth check the claim omits), so the claimed
"empty exactly when no listed check is violated" is false. -/
theorem c8_counterexample :
    (1 ≤ c8_group.num_bays ∧ 0 < c8_group.bay_width ∧ 0 ≤ c8_group.ground_clearance ∧
     0 < c8_group.shelf_thickness ∧ 0 < c8_group.side_panel_thickness ∧
     0 < c8_group.bin_split_thickness ∧ 1 ≤ c8_group.num_cols ∧ 1 ≤ c8_group.num_rows ∧
     |c8_group.bin_heights.sum + (num_shelves c8_group : ℚ) * c8_group.shelf_thickness
        + c8_group.ground_clearance - c8_group.total_height| ≤ 1/10) ∧
    validate_group_params c8_group ≠ [] := by
  constructor
  · simp only [c8_group, num_shelves]
    norm_num
  · simp only [validate_group_params, num_shelves, c8_group]
    norm_num

/-- Total advance over a nil list is zero. -/
theorem adv_sum_nil (t : ℚ) : adv_sum t [] = 0 := rfl

/-- Total advance over a cons: one shelf pitch plus the rest. -/
theorem adv_sum_cons (t h : ℚ) (hs : List ℚ) :
    adv_sum t (h :: hs) = (t + h) + adv_sum t hs := by
  simp [adv_sum]

/-- The total advance is nonnegative for positive thickness and heights. -/
theorem adv_sum_nonneg (t : ℚ) (hs : List ℚ) (ht : 0 < t) (hpos : ∀ h ∈ hs, 0 < h) :
    0 ≤ adv_sum t hs := by
  induction hs with
  | nil => simp [adv_sum_nil]
  | cons h hs ih =>
    rw [adv_sum_cons]
    have h1 : 0 < h := hpos h (by simp)
    have h2 : 0 ≤ adv_sum t hs := ih (fun x hx => hpos x (by simp [hx]))
    linarith

/-- The total advance is the number of levels times the shelf thickness
plus the sum of the net heights. -/
theorem adv_sum_eq (t : ℚ) (hs : List ℚ) :
    adv_sum t hs = (hs.length : ℚ) * t + hs.sum := by
  induction hs with
  | nil => simp [adv_sum_nil]
  | cons h hs ih =>
    rw [adv_sum_cons, ih]
    simp only [List.length_cons, List.sum_cons]
    push_cast
    ring

/-- Unions of band lists. -/
theorem bands_union_nil : bands_union [] = ∅ := rfl

/-- Union of a cons of bands. -/
theorem bands_union_cons (b : ℚ × ℚ) (l : List (ℚ × ℚ)) :
    bands_union (b :: l) = Set.Ico b.1 b.2 ∪ bands_union l := rfl

/-- Union of an append of band lists. -/
theorem bands_union_append (l₁ l₂ : List (ℚ × ℚ)) :
    bands_union (l₁ ++ l₂) = bands_union l₁ ∪ bands_union l₂ := by
  induction l₁ with
  | nil => simp [bands_union_nil, bands_union]
  | cons b l ih => simp [bands_union_cons, ih, Set.union_assoc]

/-- With the drawn shelf thickness equal to the actual one, the shelf and
gap bands starting at `y` cover exactly `[y, y + adv_sum t hs)`. -/
theorem shelf_gap_bands_union (t : ℚ) (ht : 0 < t) :
    ∀ (hs : List ℚ) (y : ℚ), (∀ h ∈ hs, 0 < h) →
      bands_union (shelf_gap_bands t t y hs) = Set.Ico y (y + adv_sum t hs) := by
  intro hs
  induction hs with
  | nil => intro y _; simp [shelf_gap_bands, bands_union_nil, adv_sum_nil]
  | cons h hs ih =>
    intro y hpos
    have hh : 0 < h := hpos h (by simp)
    have hrest : ∀ x ∈ hs, 0 < x := fun x hx => hpos x (by simp [hx])
    have hadv : 0 ≤ adv_sum t hs := adv_sum_nonneg t hs ht hrest
    rw [shelf_gap_bands, bands_union_cons, bands_union_cons, ih (y + t + h) hrest]
    dsimp only
    rw [Set.Ico_union_Ico_eq_Ico (by linarith) (by linarith)]
    rw [Set.Ico_union_Ico_eq_Ico (by linarith) (by linarith)]
    rw [adv_sum_cons]
    ring_nf

/-- Every shelf or gap band lies between `y` and `y + adv_sum t hs`. -/
theorem shelf_gap_bands_bounds (t : ℚ) (ht : 0 < t) :
    ∀ (hs : List ℚ) (y : ℚ), (∀ h ∈ hs, 0 < h) →
      ∀ p ∈ shelf_gap_bands t t y hs, y ≤ p.1 ∧ p.2 ≤ y + adv_sum t hs := by
  intro hs
  induction hs with
  | nil => intro y _ p hp; simp [shelf_gap_bands] at hp
  | cons h hs ih =>
    intro y hpos p hp
    have hh : 0 < h := hpos h (by simp)
    have hrest : ∀ x ∈ hs, 0 < x := fun x hx => hpos x (by simp [hx])
    have hadv : 0 ≤ adv_sum t hs := adv_sum_nonneg t hs ht hrest
    rw [adv_sum_cons]
    rw [shelf_gap_bands] at hp
    simp only [List.mem_cons] at hp
    rcases hp with rfl | rfl | hp
    · constructor
      · dsimp only
        exact le_rfl
      · dsimp only
        linarith

    · constructor
      · dsimp only
        linarith
      · dsimp only
        linarith
    · have := ih (y + t + h) hrest p hp
      constructor
      · linarith [this.1]
      · linarith [this.2]

/-- The shelf and gap bands are ordered: each band ends no later than every
later band starts. -/
theorem shelf_gap_bands_pairwise (t : ℚ) (ht : 0 < t) :
    ∀ (hs : List ℚ) (y : ℚ), (∀ h ∈ hs, 0 < h) →
      List.Pairwise (fun p q : ℚ × ℚ => p.2 ≤ q.1) (shelf_gap_bands t t y hs) := by
  intro hs
  induction hs with
  | nil => intro y _; simp [shelf_gap_bands]
  | cons h hs ih =>
    intro y hpos
    have hh : 0 < h := hpos h (by simp)
    have hrest : ∀ x ∈ hs, 0 < x := fun x hx => hpos x (by simp [hx])
    rw [shelf_gap_bands]
    refine List.Pairwise.cons ?_ (List.Pairwise.cons ?_ (ih (y + t + h) hrest))
    · intro q hq
      simp only [List.mem_cons] at hq
      rcases hq with rfl | hq
      · dsimp only
        exact le_rfl
      · have := (shelf_gap_bands_bounds t ht hs (y + t + h) hrest q hq).1
        dsimp only
        linarith
    · intro q hq
      have := (shelf_gap_bands_bounds t ht hs (y + t + h) hrest q hq).1
      dsimp only
      linarith

/-- Bands whose order respects the endpoints are disjoint as intervals. -/
theorem ico_disjoint_of_le {a b c d : ℚ} (h : b ≤ c) :
    Disjoint (Set.Ico a b) (Set.Ico c d) := by
  rw [Set.Ico_disjoint_Ico]
  exact le_trans (min_le_left _ _) (le_trans h (le_max_right _ _))

/-- A valid single-bay, single-column instance of the reference scenario
(height identity exact), used for claim C3. -/
def c3_group : BayGroup :=
  ⟨1, 1050, 1908, 50, 18, 18, 18, 1, 5, true,
   [350, 350, 350, 350, 350], [false, false, false, false, false]⟩

/-- C3 amended: for a group whose height identity holds exactly, whose level
heights are positive and whose shelf thickness is positive and at most the
18 mm drawing cap (so drawn thickness equals actual thickness), the drawn
shelf bands, the net bin gaps and the top-cap band are pairwise disjoint
and together tile exactly `[ground_clearance, total_height)`; the claimed
interval `[0, total_height)` is wrong whenever `ground_clearance > 0`, and
the all-parts no-overlap claim fails because shelves span the full group
width across the side panels (see the counterexample). -/
theorem c3_amended_tiling (g : BayGroup)
    (ht : 0 < g.shelf_thickness) (ht18 : g.shelf_thickness ≤ 18)
    (hpos : ∀ h ∈ g.bin_heights, 0 < h)
    (hrows : g.num_rows = g.bin_heights.length)
    (hid : g.total_height
      = g.bin_heights.sum + (num_shelves g : ℚ) * g.shelf_thickness + g.ground_clearance) :
    List.Pairwise
      (fun p q : ℚ × ℚ => Disjoint (Set.Ico p.1 p.2) (Set.Ico q.1 q.2)) (vbands g) ∧
    bands_union (vbands g) = Set.Ico g.ground_clearance g.total_height := by
  have hv : visual_shelf_thickness g = g.shelf_thickness := min_eq_left ht18
  have hadv := adv_sum_eq g.shelf_thickness g.bin_heights
  have hnn := adv_sum_nonneg g.shelf_thickness g.bin_heights ht hpos
  cases htc : g.has_top_cap with
  | false =>
    have hvb : vbands g
        = shelf_gap_bands g.shelf_thickness g.shelf_thickness g.ground_clearance
            g.bin_heights := by
      simp [vbands, hv, htc]
    have hcap : (num_shelves g : ℚ) = (g.bin_heights.length : ℚ) := by
      simp [num_shelves, htc, hrows]
    have hsum : g.ground_clearance + adv_sum g.shelf_thickness g.bin_heights
        = g.total_height := by
      rw [hadv, hid, hcap]
      ring
    constructor
    · rw [hvb]
      exact (shelf_gap_bands_pairwise g.shelf_thickness ht g.bin_heights
        g.ground_clearance hpos).imp (fun hpq => ico_disjoint_of_le hpq)
    · rw [hvb, shelf_gap_bands_union g.shelf_thickness ht g.bin_heights
        g.ground_clearance hpos, hsum]
  | true =>
    have hvb : vbands g
        = shelf_gap_bands g.shelf_thickness g.shelf_thickness g.ground_clearance
              g.bin_heights
          ++ [(g.total_height - g.shelf_thickness, g.total_height)] := by
      simp [vbands, hv, htc]
    have hcap : (num_shelves g : ℚ) = (g.bin_heights.length : ℚ) + 1 := by
      simp [num_shelves, htc, hrows]
    have hsum : g.ground_clearance + adv_sum g.shelf_thickness g.bin_heights
        = g.total_height - g.shelf_thickness := by
      rw [hadv, hid, hcap]
      ring
    constructor
    · rw [hvb]
      refine ((List.pairwise_append).mpr ⟨shelf_gap_bands_pairwise g.shelf_thickness ht
        g.bin_heights g.ground_clearance hpos, by simp, ?_⟩).imp
        (fun hpq => ico_disjoint_of_le hpq)
      intro p hp q hq
      simp only [List.mem_singleton] at hq
      subst hq
      have hb := (shelf_gap_bands_bounds g.shelf_thickness ht g.bin_heights
        g.ground_clearance hpos p hp).2
      dsimp only
      linarith
    · rw [hvb, bands_union_append, shelf_gap_bands_union g.shelf_thickness ht
        g.bin_heights g.ground_clearance hpos, hsum]
      have h1 : bands_union [(g.total_height - g.shelf_thickness, g.total_height)]
          = Set.Ico (g.total_height - g.shelf_thickness) g.total_height := by
        rw [bands_union_cons, bands_union_nil]
        simp
      rw [h1]
      refine Set.Ico_union_Ico_eq_Ico (by linarith) (by linarith)

/-- C3 counterexample: `c3_group` passes validation, yet two of its drawn
parts overlap in their interiors: the left side panel (part 0) and the
first shelf (part 2), because every shelf spans the full group width,
side panels included.  This refutes the claimed no-overlap property. -/
theorem c3_counterexample :
    validate_group_params c3_group = [] ∧
    rect_overlap ((layout_parts c3_group).getD 0 ⟨0, 0, 0, 0, Role.shelf⟩)
      ((layout_parts c3_group).getD 2 ⟨0, 0, 0, 0, Role.shelf⟩) := by
  constructor
  · simp only [validate_group_params, num_shelves, c3_group]
    norm_num
  · simp only [layout_parts, draw_side_panels, draw_bays, draw_shelves, draw_top_cap,
      shelf_rect, divider_rect, visual_side_panel_thickness, visual_shelf_thickness,
      visual_bin_split_thickness, core_width, total_group_width, c3_group,
      List.range_succ, List.range_zero]
    norm_num [rect_overlap]

/-- C3 witness: the amended tiling theorem applied to `c3_group`. -/
theorem c3_amended_tiling_witness :
    List.Pairwise
      (fun p q : ℚ × ℚ => Disjoint (Set.Ico p.1 p.2) (Set.Ico q.1 q.2)) (vbands c3_group) ∧
    bands_union (vbands c3_group)
      = Set.Ico c3_group.ground_clearance c3_group.total_height :=
  c3_amended_tiling c3_group (by norm_num [c3_group]) (by norm_num [c3_group])
    (by
      intro h hh
      simp only [c3_group, List.mem_cons, List.not_mem_nil, or_false] at hh
      rcases hh with rfl | rfl | rfl | rfl | rfl <;> norm_num)
    rfl
    (by simp only [c3_group, num_shelves]; norm_num)

/-- A valid group with a 20 mm bin-split thickness and a top cap, used for
claim C7. -/
def c7_group : BayGroup :=
  ⟨1, 300, 1000, 50, 18, 18, 20, 2, 3, true, [300, 300, 278], [false, false, false]⟩

/-- Every rectangle emitted by the shelf loop has the shelf role. -/
theorem draw_shelves_role (g : BayGroup) :
    ∀ (n : ℕ) (y : ℚ) (hs : List ℚ), ∀ r ∈ draw_shelves g n y hs, r.role = Role.shelf := by
  intro n
  induction n with
  | zero => intro y hs r hr; simp [draw_shelves] at hr
  | succ n ih =>
    intro y hs r hr
    cases hs with
    | nil =>
      simp only [draw_shelves, List.mem_cons] at hr
      rcases hr with rfl | hr
      · rfl
      · exact ih y [] r hr
    | cons h hs =>
      simp only [draw_shelves, List.mem_cons] at hr
      rcases hr with rfl | hr
      · rfl
      · exact ih (y + g.shelf_thickness + h) hs r hr

/-- Filtering the drawn parts for the divider role leaves exactly the
divider rectangles of `draw_bays`. -/
theorem filter_divider_layout (g : BayGroup) :
    (layout_parts g).filter (fun r => r.role == Role.divider) = draw_bays g := by
  unfold layout_parts
  rw [List.filter_append, List.filter_append, List.filter_append]
  have h1 : (draw_side_panels g).filter (fun r => r.role == Role.divider) = [] := by
    simp [draw_side_panels]
  have h2 : (draw_bays g).filter (fun r => r.role == Role.divider) = draw_bays g := by
    apply List.filter_eq_self.mpr
    intro r hr
    simp only [draw_bays, List.mem_flatMap, List.mem_map] at hr
    obtain ⟨b, -, j, -, rfl⟩ := hr
    simp [divider_rect]
  have h3 : (draw_shelves g g.num_rows g.ground_clearance g.bin_heights).filter
      (fun r => r.role == Role.divider) = [] := by
    apply List.filter_eq_nil_iff.mpr
    intro r hr
    have hrole := draw_shelves_role g g.num_rows g.ground_clearance g.bin_heights r hr
    simp [hrole]
  have h4 : (draw_top_cap g).filter (fun r => r.role == Role.divider) = [] := by
    unfold draw_top_cap
    cases g.has_top_cap <;> simp
  rw [h1, h2, h3, h4]
  simp

/-- `draw_bays` emits `num_bays * (num_cols - 1)` dividers. -/
theorem draw_bays_length (g : BayGroup) :
    (draw_bays g).length = g.num_bays * (g.num_cols - 1) := by
  unfold draw_bays
  rw [List.length_flatMap]
  simp only [Function.comp_def, List.length_map, List.map_const', List.length_range,
    List.sum_replicate, smul_eq_mul]

/-- C7 amended: every valid group's drawing emits exactly
`num_bays * (num_cols - 1)` dividers (zero per bay when `num_cols = 1`);
each divider starts at `ground_clearance` and is `total_height -
ground_clearance` tall (the code ignores the top cap here), is
`min(bin_split_thickness, 18)` wide (the drawn width is capped), and sits at
`bay_start + i * bin_width + (i - 1) * bin_split_thickness` for some bay
`b < num_bays` and split index `1 ≤ i < num_cols`. -/
theorem c7_amended_dividers (g : BayGroup) :
    ((layout_parts g).filter (fun r => r.role == Role.divider)).length
      = g.num_bays * (g.num_cols - 1) ∧
    ∀ r ∈ (layout_parts g).filter (fun r => r.role == Role.divider),
      r.y = g.ground_clearance ∧
      r.h = g.total_height - g.ground_clearance ∧
      r.w = min g.bin_split_thickness 18 ∧
      ∃ b, b < g.num_bays ∧ ∃ i, 1 ≤ i ∧ i < g.num_cols ∧
        r.x = (b : ℚ) * g.bay_width + (i : ℚ) * bin_width g
          + ((i : ℚ) - 1) * g.bin_split_thickness := by
  rw [filter_divider_layout]
  constructor
  · exact draw_bays_length g
  · intro r hr
    simp only [draw_bays, List.mem_flatMap, List.mem_map, List.mem_range] at hr
    obtain ⟨b, hb, j, hj, rfl⟩ := hr
    exact ⟨rfl, rfl, rfl, b, hb, j + 1, by omega, by omega, rfl⟩

/-- C7 counterexample: `c7_group` is valid; its single divider is 18 mm wide
(not the claimed `bin_split_thickness = 20`) and reaches `total_height`,
not the claimed `total_height - shelf_thickness` under a top cap. -/
theorem c7_counterexample :
    validate_group_params c7_group = [] ∧
    ((layout_parts c7_group).filter (fun r => r.role == Role.divider)).length = 1 ∧
    (((layout_parts c7_group).filter (fun r => r.role == Role.divider)).getD 0
        ⟨0, 0, 0, 0, Role.shelf⟩).w ≠ c7_group.bin_split_thickness ∧
    (((layout_parts c7_group).filter (fun r => r.role == Role.divider)).getD 0
          ⟨0, 0, 0, 0, Role.shelf⟩).y
        + (((layout_parts c7_group).filter (fun r => r.role == Role.divider)).getD 0
          ⟨0, 0, 0, 0, Role.shelf⟩).h
      ≠ c7_group.total_height - c7_group.shelf_thickness := by
  rw [filter_divider_layout]
  refine ⟨?_, ?_, ?_, ?_⟩
  · simp only [validate_group_params, num_shelves, c7_group]
    norm_num
  · simp [draw_bays, c7_group, List.range_succ, List.range_zero]
  · norm_num [draw_bays, divider_rect, visual_bin_split_thickness, c7_group,
      List.range_succ, List.range_zero, min_def]
  · norm_num [draw_bays, divider_rect, visual_bin_split_thickness, c7_group,
      List.range_succ, List.range_zero, min_def]

/-- C7 witness: the amended divider characterization applied to `c7_group`
and its single divider rectangle. -/
theorem c7_amended_dividers_witness :
    ((layout_parts c7_group).filter (fun r => r.role == Role.divider)).length
      = c7_group.num_bays * (c7_group.num_cols - 1) ∧
    (Rect.mk 122 50 18 950 Role.divider).y = c7_group.ground_clearance ∧
    (Rect.mk 122 50 18 950 Role.divider).h
      = c7_group.total_height - c7_group.ground_clearance ∧
    (Rect.mk 122 50 18 950 Role.divider).w = min c7_group.bin_split_thickness 18 := by
  have h := c7_amended_dividers c7_group
  have hmem : (⟨122, 50, 18, 950, Role.divider⟩ : Rect)
      ∈ (layout_parts c7_group).filter (fun r => r.role == Role.divider) := by
    rw [filter_divider_layout]
    norm_num [draw_bays, divider_rect, bin_width, visual_bin_split_thickness, c7_group,
      List.range_succ, List.range_zero, min_def]
  exact ⟨h.1, (h.2 _ hmem).1, (h.2 _ hmem).2.1, (h.2 _ hmem).2.2.1⟩

/-- The accumulation loop of the bill of materials: one row per group, the
totals adding up the per-group counts on top of the accumulator. -/
theorem bom_foldl_characterization :
    ∀ (gs : List BayGroup) (acc : List (ℤ × ℤ × ℤ) × (ℤ × ℤ × ℤ)),
      (gs.foldl bom_step acc).1 = acc.1 ++ gs.map bom_row ∧
      (gs.foldl bom_step acc).2.1
        = acc.2.1 + ((gs.map bom_row).map (fun r => r.1)).sum ∧
      (gs.foldl bom_step acc).2.2.1
        = acc.2.2.1 + ((gs.map bom_row).map (fun r => r.2.1)).sum ∧
      (gs.foldl bom_step acc).2.2.2
        = acc.2.2.2 + ((gs.map bom_row).map (fun r => r.2.2)).sum := by
  intro gs
  induction gs with
  | nil => intro acc; simp
  | cons g gs ih =>
    intro acc
    simp only [List.foldl_cons, List.map_cons, List.sum_cons]
    obtain ⟨h1, h2, h3, h4⟩ := ih (bom_step acc g)
    refine ⟨?_, ?_, ?_, ?_⟩
    · rw [h1]
      simp [bom_step]
    · rw [h2]
      simp only [bom_step]
      ring
    · rw [h3]
      simp only [bom_step]
      ring
    · rw [h4]
      simp only [bom_step]
      ring

/-- C9: the bill-of-materials table lists, for every group, two side panels,
`num_rows + (1 if top cap)` shelves and `(num_cols - 1) * num_bays`
dividers, and the totals row holds, per column, the sum of the per-group
counts. -/
theorem c9_summary_table (groups : List BayGroup) :
    (bom_table groups).1 = groups.map (fun g =>
      ((2 : ℤ), (g.num_rows : ℤ) + (if g.has_top_cap then 1 else 0),
        ((g.num_cols : ℤ) - 1) * (g.num_bays : ℤ))) ∧
    (bom_table groups).2.1 = ((bom_table groups).1.map (fun r => r.1)).sum ∧
    (bom_table groups).2.2.1 = ((bom_table groups).1.map (fun r => r.2.1)).sum ∧
    (bom_table groups).2.2.2 = ((bom_table groups).1.map (fun r => r.2.2)).sum := by
  obtain ⟨h1, h2, h3, h4⟩ := bom_foldl_characterization groups ([], (0, 0, 0))
  unfold bom_table
  rw [h1, h2, h3, h4]
  refine ⟨?_, ?_, ?_, ?_⟩ <;> simp [bom_row]
